import Mathlib

/-!
A verification development of `option.go`, the Go package `option`.

The Go package `option` implements `Option[T]` as a struct with a single
pointer field `val *T`, and gives every method a pointer receiver
`opt *Option[T]`.  The embedding keeps both: a pointer is `nil` or an address,
the world holds the cells of type `T` and the variables of type `Option[T]`,
`Some` allocates a fresh cell holding a copy of its argument,
`NewOptionFromPtr` keeps the pointer it is given, a method reads the variable
its receiver points to, and every dereference can fault.  Callbacks (providers,
predicates, consumers) are Go closures, so they are state transformers over the
world, which also carries the state the closure captured.
-/

namespace option

/-! ## Data model -/

/-- ErrNoElement is `type ErrNoElement struct{}`: a struct with no field. -/
structure ErrNoElement where
  deriving DecidableEq, Repr

/-- Error is `func (ErrNoElement) Error() string`. -/
def ErrNoElement.Error (_ : ErrNoElement) : String :=
  "option: no element is present"

/-- Values of the Go interface type `error`: the nil interface, an
`ErrNoElement{}` value, or some other error value, identified by a tag (the way
distinct `errors.New` results are distinct values). -/
inductive error where
  | nil
  | errNoElement (e : ErrNoElement)
  | other (tag : Nat)
  deriving DecidableEq, Repr

/-- A Go pointer: `nil`, or the address of a cell of a store. -/
inductive Ptr where
  | nil
  | addr (a : Nat)
  deriving DecidableEq, Repr

/-- A store of cells of type `α`: the content of every address, and the first
address that was never allocated. -/
structure Store (α : Type) where
  mem : Nat → α
  next : Nat

/-- The run-time fault of a dereference: Go panics on `*p` when `p` is nil. -/
inductive Fault where
  | nilDereference
  deriving DecidableEq, Repr

/-- Allocation of a fresh cell initialised with `v` (Go: `&value` of an
escaping variable, `new(T)`, a variable declaration): the cell at `next` is
taken, its address returned. -/
def alloc {α : Type} (s : Store α) (v : α) : Ptr × Store α :=
  (Ptr.addr s.next,
    { mem := fun a => if a = s.next then v else s.mem a, next := s.next + 1 })

/-- Dereference `*p` in store `s`. -/
def deref {α : Type} (s : Store α) : Ptr → Except Fault α
  | Ptr.nil => Except.error Fault.nilDereference
  | Ptr.addr a => Except.ok (s.mem a)

/-- Assignment `*p = v` in store `s` (what a caller that kept a pointer can
do). -/
def assign {α : Type} (s : Store α) (p : Ptr) (v : α) : Except Fault (Store α) :=
  match p with
  | Ptr.nil => Except.error Fault.nilDereference
  | Ptr.addr a => Except.ok { s with mem := fun b => if b = a then v else s.mem b }

/-- The struct `Option[T]`, `struct { val *T }`. -/
structure Option (T : Type) where
  val : Ptr
  deriving DecidableEq, Repr

/-- The world a call runs in: the cells of type `T` (what a `*T` points to),
the variables of type `Option[T]` (what a receiver `*Option[T]` points to), and
the state captured by the caller's closures. -/
structure World (T σ : Type) where
  cells : Store T
  vars : Store (Option T)
  caller : σ

/-- The expression `opt.val` for a receiver `opt *Option[T]`. -/
def field {T σ : Type} (opt : Ptr) (w : World T σ) : Except Fault Ptr :=
  (deref w.vars opt).bind fun o => Except.ok o.val

/-- The expression `*opt.val` for a receiver `opt *Option[T]`. -/
def load {T σ : Type} (opt : Ptr) (w : World T σ) : Except Fault T :=
  (field opt w).bind fun p => deref w.cells p

/-! ## Functions of `option.go` -/

/-- The function `zeroValueOfAny`, `return *new(T)`: a fresh cell holding the
zero value (`default` of `Inhabited T`) is allocated and read back; the cell is
unreachable afterwards. -/
def zeroValueOfAny {T : Type} [Inhabited T] (s : Store T) : Except Fault T :=
  deref (alloc s (default : T)).2 (alloc s (default : T)).1

/-- The constructor `Some`, `return Option[T]{&value}`: the parameter is a copy
of the argument and its address is a fresh cell. -/
def Some {T : Type} (value : T) (s : Store T) : Option T × Store T :=
  ({ val := (alloc s value).1 }, (alloc s value).2)

/-- The constructor `None`, `return Option[T]{nil}`. -/
def None {T : Type} : Option T :=
  { val := Ptr.nil }

/-- The constructor `NewOptionFromPtr`, `return Option[T]{ptr}`. -/
def NewOptionFromPtr {T : Type} (ptr : Ptr) : Option T :=
  { val := ptr }

/-- The constructor `NewOptionFromValueOrError`. -/
def NewOptionFromValueOrError {T : Type} (val : T) (err : error) (s : Store T) :
    Option T × Store T :=
  if err ≠ error.nil then
    (None, s)
  else
    Some val s

/-- The method `Get`. -/
def Get {T σ : Type} [Inhabited T] (opt : Ptr) (w : World T σ) : Except Fault (T × error) :=
  (field opt w).bind fun p =>
    if p = Ptr.nil then
      (zeroValueOfAny w.cells).bind fun z => Except.ok (z, error.errNoElement {})
    else
      (load opt w).bind fun v => Except.ok (v, error.nil)

/-- The method `IsPresent`, `return opt.val != nil`. -/
def IsPresent {T σ : Type} (opt : Ptr) (w : World T σ) : Except Fault Bool :=
  (field opt w).bind fun p => Except.ok (decide (p ≠ Ptr.nil))

/-- The method `OrElse`. -/
def OrElse {T σ : Type} (opt : Ptr) (defaultValue : T) (w : World T σ) : Except Fault T :=
  (field opt w).bind fun p =>
    if p = Ptr.nil then
      Except.ok defaultValue
    else
      load opt w

/-- The method `OrElseGet`: the provider is a closure, called only on the
`nil` branch; the world it leaves is returned with the result. -/
def OrElseGet {T σ : Type} (opt : Ptr) (provider : World T σ → T × World T σ)
    (w : World T σ) : Except Fault T × World T σ :=
  match field opt w with
  | Except.error f => (Except.error f, w)
  | Except.ok p =>
    if p = Ptr.nil then
      (Except.ok (provider w).1, (provider w).2)
    else
      (load opt w, w)

/-- The method `OrElseError`. -/
def OrElseError {T σ : Type} [Inhabited T] (opt : Ptr) (err : error) (w : World T σ) :
    Except Fault (T × error) :=
  (field opt w).bind fun p =>
    if p = Ptr.nil then
      (zeroValueOfAny w.cells).bind fun z => Except.ok (z, err)
    else
      (load opt w).bind fun v => Except.ok (v, error.nil)

/-- The method `Filter`: `opt.val != nil && predicate(*opt.val)` evaluates its
right operand only when the left one holds, and `Some[T](*opt.val)` reads the
receiver again after the predicate has run. -/
def Filter {T σ : Type} (opt : Ptr) (predicate : T → World T σ → Bool × World T σ)
    (w : World T σ) : Except Fault (Option T) × World T σ :=
  match field opt w with
  | Except.error f => (Except.error f, w)
  | Except.ok p =>
    if p ≠ Ptr.nil then
      match load opt w with
      | Except.error f => (Except.error f, w)
      | Except.ok v =>
        if (predicate v w).1 then
          match load opt (predicate v w).2 with
          | Except.error f => (Except.error f, (predicate v w).2)
          | Except.ok v1 =>
            (Except.ok (Some v1 (predicate v w).2.cells).1,
              { (predicate v w).2 with cells := (Some v1 (predicate v w).2.cells).2 })
        else
          (Except.ok None, (predicate v w).2)
    else
      (Except.ok None, w)

/-- The method `IfPresent`. -/
def IfPresent {T σ : Type} (opt : Ptr) (consumer : T → World T σ → World T σ)
    (w : World T σ) : Except Fault Unit × World T σ :=
  match field opt w with
  | Except.error f => (Except.error f, w)
  | Except.ok p =>
    if p ≠ Ptr.nil then
      match load opt w with
      | Except.error f => (Except.error f, w)
      | Except.ok v => (Except.ok (), consumer v w)
    else
      (Except.ok (), w)

/-! ## Callers

The statements of `option_test.go` that bind the result of a constructor to a
variable, whose address is then the receiver of the method calls. -/

/-- The declaration `opt := o` of a variable of type `Option[T]`; the result is
`&opt`. -/
def declare {T σ : Type} (o : Option T) (w : World T σ) : Ptr × World T σ :=
  ((alloc w.vars o).1, { w with vars := (alloc w.vars o).2 })

/-- The statement `opt := option.Some(value)`. -/
def varSome {T σ : Type} (value : T) (w : World T σ) : Ptr × World T σ :=
  declare (Some value w.cells).1 { w with cells := (Some value w.cells).2 }

/-- The statement `opt := option.None[T]()`. -/
def varNone {T σ : Type} (w : World T σ) : Ptr × World T σ :=
  declare None w

/-- The statement `opt := option.NewOptionFromPtr(ptr)`. -/
def varFromPtr {T σ : Type} (ptr : Ptr) (w : World T σ) : Ptr × World T σ :=
  declare (NewOptionFromPtr ptr) w

/-- The statement `opt := option.NewOptionFromValueOrError(val, err)`. -/
def varFromValueOrError {T σ : Type} (val : T) (err : error) (w : World T σ) :
    Ptr × World T σ :=
  declare (NewOptionFromValueOrError val err w.cells).1
    { w with cells := (NewOptionFromValueOrError val err w.cells).2 }

/-- The provider `func() T { return d }`. -/
def pureProvider {T σ : Type} (d : T) : World T σ → T × World T σ :=
  fun w => (d, w)

/-- The predicate `func(x T) bool { return p(x) }` for a side-effect-free `p`. -/
def purePredicate {T σ : Type} (p : T → Bool) : T → World T σ → Bool × World T σ :=
  fun x w => (p x, w)

/-- The provider `func() T { calls++; return provider() }`: the captured state
gets a counter of the calls. -/
def counted {T σ : Type} (provider : World T σ → T × World T σ) :
    World T (σ × Nat) → T × World T (σ × Nat) :=
  fun w =>
    ((provider { cells := w.cells, vars := w.vars, caller := w.caller.1 }).1,
      { cells := (provider { cells := w.cells, vars := w.vars, caller := w.caller.1 }).2.cells,
        vars := (provider { cells := w.cells, vars := w.vars, caller := w.caller.1 }).2.vars,
        caller :=
          ((provider { cells := w.cells, vars := w.vars, caller := w.caller.1 }).2.caller,
            w.caller.2 + 1) })

/-- The predicate `func(x T) bool { log = append(log, x); return predicate(x) }`:
the captured state gets the list of the arguments of the calls, in order. -/
def logged {T σ : Type} (predicate : T → World T σ → Bool × World T σ) :
    T → World T (σ × List T) → Bool × World T (σ × List T) :=
  fun x w =>
    ((predicate x { cells := w.cells, vars := w.vars, caller := w.caller.1 }).1,
      { cells := (predicate x { cells := w.cells, vars := w.vars, caller := w.caller.1 }).2.cells,
        vars := (predicate x { cells := w.cells, vars := w.vars, caller := w.caller.1 }).2.vars,
        caller :=
          ((predicate x { cells := w.cells, vars := w.vars, caller := w.caller.1 }).2.caller,
            w.caller.2 ++ [x]) })

/-- The closure `predicate` never writes the allocated value cell at address
`c`: it holds no pointer to it (cells it allocates itself are other cells). -/
def KeepsCell {T σ : Type} (predicate : T → World T σ → Bool × World T σ) (c : Nat) : Prop :=
  ∀ (x : T) (w : World T σ), c < w.cells.next → (predicate x w).2.cells.mem c = w.cells.mem c

/-- The closure `predicate` never assigns the allocated `Option[T]` variable at
address `a`: it did not capture it. -/
def KeepsVar {T σ : Type} (predicate : T → World T σ → Bool × World T σ) (a : Nat) : Prop :=
  ∀ (x : T) (w : World T σ), a < w.vars.next → (predicate x w).2.vars.mem a = w.vars.mem a

/-- The store in which every cell holds `v` and nothing is allocated. -/
def constStore {α : Type} (v : α) : Store α :=
  { mem := fun _ => v, next := 0 }

/-- The world in which every cell holds `v`, every variable is the empty
option, and nothing is allocated. -/
def constWorld {T σ : Type} (v : T) (c : σ) : World T σ :=
  { cells := constStore v, vars := constStore None, caller := c }

/-- The consumer `func(x T) { log = append(log, x); consumer(x) }`: the
captured state gets the list of the arguments of the calls, in order. -/
def loggedConsumer {T σ : Type} (consumer : T → World T σ → World T σ) :
    T → World T (σ × List T) → World T (σ × List T) :=
  fun x w =>
    { cells := (consumer x { cells := w.cells, vars := w.vars, caller := w.caller.1 }).cells,
      vars := (consumer x { cells := w.cells, vars := w.vars, caller := w.caller.1 }).vars,
      caller :=
        ((consumer x { cells := w.cells, vars := w.vars, caller := w.caller.1 }).caller,
          w.caller.2 ++ [x]) }

/-- The caller's statements `val := v; p := &val`: a fresh cell holding `v`;
the result is `p`. -/
def newCell {T σ : Type} (v : T) (w : World T σ) : Ptr × World T σ :=
  ((alloc w.cells v).1, { w with cells := (alloc w.cells v).2 })

/-- The caller's statement `*q = u` for the pointer `q` to the cell at address
`a` (an assignment to the caller's own variable when `a` is its cell). -/
def write {T σ : Type} (a : Nat) (u : T) (w : World T σ) : World T σ :=
  match assign w.cells (Ptr.addr a) u with
  | Except.ok s => { w with cells := s }
  | Except.error _ => w

/-- A sequence of caller's statements `*q = u`, run in order. -/
def writeAll {T σ : Type} : List (Nat × T) → World T σ → World T σ
  | [], w => w
  | x :: xs, w => writeAll xs (write x.1 x.2 w)

/-- The caller's statement `opt = o` for the variable `opt` at address `a`. -/
def assignVar {T σ : Type} (a : Nat) (o : Option T) (w : World T σ) : World T σ :=
  match assign w.vars (Ptr.addr a) o with
  | Except.ok s => { w with vars := s }
  | Except.error _ => w

/-- The predicate `func(x T) bool { opt = option.None[T](); return true }`, a
closure over the variable `opt` at address `a`. -/
def emptying {T σ : Type} (a : Nat) : T → World T σ → Bool × World T σ :=
  fun _ w => (true, assignVar a None w)

/-- The predicate `func(x T) bool { opt = option.Some(u); return true }`, a
closure over the variable `opt` at address `a`. -/
def reseating {T σ : Type} (a : Nat) (u : T) : T → World T σ → Bool × World T σ :=
  fun _ w => (true, assignVar a (Some u w.cells).1 { w with cells := (Some u w.cells).2 })

/-- The predicate `func(x T) bool { opt = option.None[T](); return false }`, a
closure over the variable `opt` at address `a`. -/
def emptyingRejecting {T σ : Type} (a : Nat) : T → World T σ → Bool × World T σ :=
  fun _ w => (false, assignVar a None w)

/-- The predicate `func(x T) bool { val = u; return p(x) }`, a closure over the
caller's variable `val`, whose cell is at address `c`. -/
def overwriting {T σ : Type} (c : Nat) (u : T) (p : T → Bool) :
    T → World T σ → Bool × World T σ :=
  fun x w => (p x, write c u w)

/-- The world after the caller's `opt := option.Some(5)`: cell 0 holds 5 and
the variable `opt` is at address 0. -/
def worldSome5 : World Nat Unit :=
  (varSome 5 (constWorld 0 ())).2

/-- The world after the caller's `val := 5; opt := option.NewOptionFromPtr(&val)`:
`val` is cell 0 and the variable `opt` is at address 0. -/
def worldFromPtr5 : World Nat Unit :=
  (varFromPtr (newCell 5 (constWorld 0 ())).1 (newCell 5 (constWorld 0 ())).2).2

/-- What the methods read of the variable at address `a`: the struct it holds
and the cell its pointer refers to. -/
def view {T σ : Type} (a : Nat) (w : World T σ) : Option T × Except Fault T :=
  (w.vars.mem a, deref w.cells (w.vars.mem a).val)

/-- The variable at address `a` is a declared variable whose pointer, when not
nil, refers to an allocated cell: what the constructors and `declare` make. -/
def Live {T σ : Type} (a : Nat) (w : World T σ) : Prop :=
  a < w.vars.next ∧ ∀ c, (w.vars.mem a).val = Ptr.addr c → c < w.cells.next

/-- From world `w` to world `w1` the variable at address `a` stays declared and
neither it nor the cell it points to was written. -/
def Untouched {T σ : Type} (a : Nat) (w w1 : World T σ) : Prop :=
  Live a w1 ∧ view a w1 = view a w

/-- A method call on an Option variable, with its arguments. -/
inductive Call (T σ : Type) where
  | get
  | isPresent
  | orElse (defaultValue : T)
  | orElseGet (provider : World T σ → T × World T σ)
  | orElseError (err : error)
  | filter (predicate : T → World T σ → Bool × World T σ)
  | ifPresent (consumer : T → World T σ → World T σ)

/-- The world `Get` and `OrElseError` leave: on the nil branch they call
`zeroValueOfAny`, whose `new(T)` takes a fresh cell holding the zero value; on
the other branch, and when the receiver itself is nil, nothing is written. -/
def afterZero {T σ : Type} [Inhabited T] (opt : Ptr) (w : World T σ) : World T σ :=
  match field opt w with
  | Except.error _ => w
  | Except.ok p =>
    if p = Ptr.nil then
      { w with cells := (alloc w.cells (default : T)).2 }
    else
      w

/-- The world after the call `opt.m(args)`, its result being dropped: `Get` and
`OrElseError` leave the cell of `new(T)` behind on their nil branch,
`IsPresent` and `OrElse` have a body without assignment or allocation, and the
other three leave the world their callback and their own allocation made. -/
def Call.run {T σ : Type} [Inhabited T] (opt : Ptr) : Call T σ → World T σ → World T σ
  | Call.get, w => afterZero opt w
  | Call.isPresent, w => w
  | Call.orElse _, w => w
  | Call.orElseGet provider, w => (OrElseGet opt provider w).2
  | Call.orElseError _, w => afterZero opt w
  | Call.filter predicate, w => (Filter opt predicate w).2
  | Call.ifPresent consumer, w => (IfPresent opt consumer w).2

/-- The world after a sequence of method calls on the same variable. -/
def runCalls {T σ : Type} [Inhabited T] (opt : Ptr) :
    List (Call T σ) → World T σ → World T σ
  | [], w => w
  | c :: cs, w => runCalls opt cs (Call.run opt c w)

/-- The callback of a call does not itself write the variable at address `a`
nor the cell it points to, in any world where that variable is live. -/
def Call.Frames {T σ : Type} (a : Nat) : Call T σ → Prop
  | Call.orElseGet provider => ∀ w, Live a w → Untouched a w (provider w).2
  | Call.filter predicate => ∀ x w, Live a w → Untouched a w (predicate x w).2
  | Call.ifPresent consumer => ∀ x w, Live a w → Untouched a w (consumer x w)
  | _ => True

/-- The caller's statements `r := <call>; b := r.IsPresent(); g := r.Get()` on
the result of a `Filter` call: what can be observed of the returned option. -/
def observe {T σ : Type} [Inhabited T] (x : Except Fault (Option T) × World T σ) :
    Except Fault (Bool × (T × error)) :=
  match x.1 with
  | Except.error f => Except.error f
  | Except.ok r =>
    (IsPresent (declare r x.2).1 (declare r x.2).2).bind fun b =>
      (Get (declare r x.2).1 (declare r x.2).2).bind fun g => Except.ok (b, g)

/-- The caller's statements `r := opt.Filter(p); r.Filter(q)`. -/
def filterTwice {T σ : Type} (opt : Ptr) (p q : T → World T σ → Bool × World T σ)
    (w : World T σ) : Except Fault (Option T) × World T σ :=
  match (Filter opt p w).1 with
  | Except.error f => (Except.error f, (Filter opt p w).2)
  | Except.ok r => Filter (declare r (Filter opt p w).2).1 q (declare r (Filter opt p w).2).2

/-- A sample sequence of calls on one variable, with callbacks that have no
side effect: `Get`, `Filter(x == 5)`, `OrElseGet(func() { return 1 })`,
`IfPresent(func(x) {})`, `OrElse(9)`, `OrElseError(err)`, `IsPresent`. -/
def sampleCalls : List (Call Nat Unit) :=
  [Call.get, Call.filter (purePredicate fun x => x == 5), Call.orElseGet (pureProvider 1),
    Call.ifPresent (fun _ w => w), Call.orElse 9, Call.orElseError (error.other 7),
    Call.isPresent]

/-- The world in which the predicate call of `Filter` returns: the one the
predicate leaves when the receiver is occupied, the initial one when the
receiver is empty and the predicate is not called. -/
def predicateWorld {T σ : Type} (opt : Ptr) (predicate : T → World T σ → Bool × World T σ)
    (w : World T σ) : World T σ :=
  match load opt w with
  | Except.ok v => (predicate v w).2
  | Except.error _ => w

/-! ## Basic facts about the store and the receiver -/

theorem deref_alloc {α : Type} (s : Store α) (v : α) :
    deref (alloc s v).2 (alloc s v).1 = Except.ok v := by
  simp [deref, alloc]

theorem zeroValueOfAny_eq {T : Type} [Inhabited T] (s : Store T) :
    zeroValueOfAny s = Except.ok (default : T) :=
  deref_alloc s default

theorem field_addr {T σ : Type} (a : Nat) (w : World T σ) :
    field (Ptr.addr a) w = Except.ok (w.vars.mem a).val := rfl

theorem field_declare {T σ : Type} (o : Option T) (w : World T σ) :
    field (declare o w).1 (declare o w).2 = Except.ok o.val := by
  simp [field, declare, deref, alloc, Except.bind]

theorem load_declare {T σ : Type} (o : Option T) (w : World T σ) :
    load (declare o w).1 (declare o w).2 = deref w.cells o.val := by
  unfold load
  rw [field_declare]
  rfl

theorem Get_of_field_nil {T σ : Type} [Inhabited T] (r : Ptr) (w : World T σ)
    (h : field r w = Except.ok Ptr.nil) :
    Get r w = Except.ok (default, error.errNoElement {}) := by
  simp [Get, h, zeroValueOfAny_eq, Except.bind]

theorem Get_of_field_addr {T σ : Type} [Inhabited T] (r : Ptr) (w : World T σ) (c : Nat)
    (h : field r w = Except.ok (Ptr.addr c)) :
    Get r w = Except.ok (w.cells.mem c, error.nil) := by
  simp [Get, load, h, deref, Except.bind]

theorem IsPresent_of_field {T σ : Type} (r : Ptr) (w : World T σ) (p : Ptr)
    (h : field r w = Except.ok p) :
    IsPresent r w = Except.ok (decide (p ≠ Ptr.nil)) := by
  simp [IsPresent, h, Except.bind]

theorem field_varSome {T σ : Type} (v : T) (w : World T σ) :
    field (varSome v w).1 (varSome v w).2 = Except.ok (Ptr.addr w.cells.next) := by
  simp [varSome, field_declare, Some, alloc]

theorem cell_varSome {T σ : Type} (v : T) (w : World T σ) :
    (varSome v w).2.cells.mem w.cells.next = v := by
  simp [varSome, declare, Some, alloc]

theorem field_varNone {T σ : Type} (w : World T σ) :
    field (varNone w).1 (varNone w : Ptr × World T σ).2 = Except.ok Ptr.nil := by
  simp [varNone, field_declare, None]

theorem field_varFromPtr {T σ : Type} (p : Ptr) (w : World T σ) :
    field (varFromPtr p w).1 (varFromPtr p w : Ptr × World T σ).2 = Except.ok p := by
  simp [varFromPtr, field_declare, NewOptionFromPtr]

theorem varFromValueOrError_nil {T σ : Type} (v : T) (w : World T σ) :
    varFromValueOrError v error.nil w = varSome v w := by
  simp [varFromValueOrError, NewOptionFromValueOrError, varSome]

theorem varFromValueOrError_err {T σ : Type} (v : T) (err : error) (w : World T σ)
    (h : err ≠ error.nil) : varFromValueOrError v err w = varNone w := by
  simp [varFromValueOrError, NewOptionFromValueOrError, varNone, h]

theorem OrElse_of_field_nil {T σ : Type} (r : Ptr) (d : T) (w : World T σ)
    (h : field r w = Except.ok Ptr.nil) : OrElse r d w = Except.ok d := by
  simp [OrElse, h, Except.bind]

theorem OrElse_of_field_addr {T σ : Type} (r : Ptr) (d : T) (w : World T σ) (c : Nat)
    (h : field r w = Except.ok (Ptr.addr c)) : OrElse r d w = Except.ok (w.cells.mem c) := by
  simp [OrElse, load, h, deref, Except.bind]

theorem OrElseError_of_field_nil {T σ : Type} [Inhabited T] (r : Ptr) (e : error)
    (w : World T σ) (h : field r w = Except.ok Ptr.nil) :
    OrElseError r e w = Except.ok (default, e) := by
  simp [OrElseError, h, zeroValueOfAny_eq, Except.bind]

theorem OrElseError_of_field_addr {T σ : Type} [Inhabited T] (r : Ptr) (e : error)
    (w : World T σ) (c : Nat) (h : field r w = Except.ok (Ptr.addr c)) :
    OrElseError r e w = Except.ok (w.cells.mem c, error.nil) := by
  simp [OrElseError, load, h, deref, Except.bind]

theorem Filter_of_field_nil {T σ : Type} (r : Ptr)
    (q : T → World T σ → Bool × World T σ) (w : World T σ)
    (h : field r w = Except.ok Ptr.nil) : Filter r q w = (Except.ok None, w) := by
  simp [Filter, h]

theorem Filter_of_field_addr {T σ : Type} (r : Ptr)
    (q : T → World T σ → Bool × World T σ) (w : World T σ) (c : Nat)
    (h : field r w = Except.ok (Ptr.addr c)) :
    Filter r q w =
      if (q (w.cells.mem c) w).1 then
        match load r (q (w.cells.mem c) w).2 with
        | Except.error f => (Except.error f, (q (w.cells.mem c) w).2)
        | Except.ok v1 =>
          (Except.ok (Some v1 (q (w.cells.mem c) w).2.cells).1,
            { (q (w.cells.mem c) w).2 with
              cells := (Some v1 (q (w.cells.mem c) w).2.cells).2 })
      else
        (Except.ok None, (q (w.cells.mem c) w).2) := by
  have hl : load r w = Except.ok (w.cells.mem c) := by
    simp [load, h, deref, Except.bind]
  simp [Filter, h, hl]

theorem OrElseGet_of_field_nil {T σ : Type} (r : Ptr) (p : World T σ → T × World T σ)
    (w : World T σ) (h : field r w = Except.ok Ptr.nil) :
    OrElseGet r p w = (Except.ok (p w).1, (p w).2) := by
  simp [OrElseGet, h]

theorem OrElseGet_of_field_addr {T σ : Type} (r : Ptr) (p : World T σ → T × World T σ)
    (w : World T σ) (c : Nat) (h : field r w = Except.ok (Ptr.addr c)) :
    OrElseGet r p w = (Except.ok (w.cells.mem c), w) := by
  simp [OrElseGet, load, h, deref, Except.bind]

theorem IfPresent_of_field_nil {T σ : Type} (r : Ptr) (c : T → World T σ → World T σ)
    (w : World T σ) (h : field r w = Except.ok Ptr.nil) :
    IfPresent r c w = (Except.ok (), w) := by
  simp [IfPresent, h]

theorem IfPresent_of_field_addr {T σ : Type} (r : Ptr) (c : T → World T σ → World T σ)
    (w : World T σ) (k : Nat) (h : field r w = Except.ok (Ptr.addr k)) :
    IfPresent r c w = (Except.ok (), c (w.cells.mem k) w) := by
  have hl : load r w = Except.ok (w.cells.mem k) := by
    simp [load, h, deref, Except.bind]
  simp [IfPresent, h, hl]

theorem IsPresent_Get_of_view {T σ : Type} [Inhabited T] (a : Nat) (w w1 : World T σ)
    (h : view a w1 = view a w) :
    IsPresent (Ptr.addr a) w1 = IsPresent (Ptr.addr a) w ∧
      Get (Ptr.addr a) w1 = Get (Ptr.addr a) w := by
  have hv : w1.vars.mem a = w.vars.mem a := congrArg Prod.fst h
  have hd : deref w1.cells (w1.vars.mem a).val = deref w.cells (w.vars.mem a).val :=
    congrArg Prod.snd h
  have hf1 := field_addr a w1
  have hf := field_addr a w
  rw [hv] at hf1 hd
  cases hp : (w.vars.mem a).val with
  | nil =>
    rw [hp] at hf hf1
    rw [IsPresent_of_field _ _ _ hf, IsPresent_of_field _ _ _ hf1,
      Get_of_field_nil _ _ hf, Get_of_field_nil _ _ hf1]
    exact ⟨rfl, rfl⟩
  | addr c =>
    rw [hp] at hf hf1 hd
    have hc : w1.cells.mem c = w.cells.mem c := by
      simpa [deref] using hd
    rw [IsPresent_of_field _ _ _ hf, IsPresent_of_field _ _ _ hf1,
      Get_of_field_addr _ _ _ hf, Get_of_field_addr _ _ _ hf1, hc]
    exact ⟨rfl, rfl⟩

theorem Untouched_refl {T σ : Type} (a : Nat) (w : World T σ) (h : Live a w) :
    Untouched a w w :=
  ⟨h, rfl⟩

theorem Untouched_trans {T σ : Type} (a : Nat) (w w1 w2 : World T σ)
    (h1 : Untouched a w w1) (h2 : Untouched a w1 w2) : Untouched a w w2 :=
  ⟨h2.1, h2.2.trans h1.2⟩

theorem Untouched_alloc {T σ : Type} (a : Nat) (w : World T σ) (v : T) (h : Live a w) :
    Untouched a w { w with cells := (Some v w.cells).2 } := by
  obtain ⟨h1, h2⟩ := h
  refine ⟨⟨h1, fun c hc => Nat.lt_succ_of_lt (h2 c hc)⟩, ?_⟩
  cases hp : (w.vars.mem a).val with
  | nil => simp [view, hp, deref]
  | addr c =>
    have hne : c ≠ w.cells.next := Nat.ne_of_lt (h2 c hp)
    simp [view, hp, deref, Some, alloc, hne]

theorem Filter_untouched {T σ : Type} (a : Nat)
    (q : T → World T σ → Bool × World T σ) (w : World T σ) (hl : Live a w)
    (hq : ∀ x u, Live a u → Untouched a u (q x u).2) :
    Untouched a w (Filter (Ptr.addr a) q w).2 := by
  have hf := field_addr a w
  cases hp : (w.vars.mem a).val with
  | nil =>
    rw [hp] at hf
    rw [Filter_of_field_nil _ _ _ hf]
    exact Untouched_refl a w hl
  | addr c =>
    rw [hp] at hf
    rw [Filter_of_field_addr _ _ _ _ hf]
    have hU := hq (w.cells.mem c) w hl
    cases hb : (q (w.cells.mem c) w).1 with
    | false => simpa using hU
    | true =>
      cases hl1 : load (Ptr.addr a) (q (w.cells.mem c) w).2 with
      | error f => simpa [hl1] using hU
      | ok v1 =>
        simp only [if_true]
        exact Untouched_trans a w _ _ hU (Untouched_alloc a _ v1 hU.1)

theorem OrElseGet_untouched {T σ : Type} (a : Nat)
    (p : World T σ → T × World T σ) (w : World T σ) (hl : Live a w)
    (hp : ∀ u, Live a u → Untouched a u (p u).2) :
    Untouched a w (OrElseGet (Ptr.addr a) p w).2 := by
  have hf := field_addr a w
  cases hv : (w.vars.mem a).val with
  | nil =>
    rw [hv] at hf
    rw [OrElseGet_of_field_nil _ _ _ hf]
    exact hp w hl
  | addr c =>
    rw [hv] at hf
    rw [OrElseGet_of_field_addr _ _ _ _ hf]
    exact Untouched_refl a w hl

theorem IfPresent_untouched {T σ : Type} (a : Nat)
    (c : T → World T σ → World T σ) (w : World T σ) (hl : Live a w)
    (hc : ∀ x u, Live a u → Untouched a u (c x u)) :
    Untouched a w (IfPresent (Ptr.addr a) c w).2 := by
  have hf := field_addr a w
  cases hv : (w.vars.mem a).val with
  | nil =>
    rw [hv] at hf
    rw [IfPresent_of_field_nil _ _ _ hf]
    exact Untouched_refl a w hl
  | addr k =>
    rw [hv] at hf
    rw [IfPresent_of_field_addr _ _ _ _ hf]
    exact hc _ w hl

theorem afterZero_untouched {T σ : Type} [Inhabited T] (a : Nat) (w : World T σ)
    (hl : Live a w) : Untouched a w (afterZero (Ptr.addr a) w) := by
  have hf := field_addr a w
  cases hp : (w.vars.mem a).val with
  | nil =>
    rw [hp] at hf
    have hw : afterZero (Ptr.addr a) w
        = { w with cells := (alloc w.cells (default : T)).2 } := by
      simp [afterZero, hf]
    rw [hw]
    refine ⟨⟨hl.1, fun c hc => ?_⟩, ?_⟩
    · rw [show (w.vars.mem a).val = Ptr.nil from hp] at hc
      cases hc
    · simp [view, hp, deref]
  | addr c =>
    rw [hp] at hf
    have hw : afterZero (Ptr.addr a) w = w := by
      simp [afterZero, hf]
    rw [hw]
    exact Untouched_refl a w hl

theorem afterZero_view {T σ : Type} [Inhabited T] (a : Nat) (w : World T σ) :
    view a (afterZero (Ptr.addr a) w) = view a w := by
  have hf := field_addr a w
  cases hp : (w.vars.mem a).val with
  | nil =>
    rw [hp] at hf
    simp [afterZero, hf, view, hp, deref]
  | addr c =>
    rw [hp] at hf
    simp [afterZero, hf]

theorem run_untouched {T σ : Type} [Inhabited T] (a : Nat) (c : Call T σ) (w : World T σ)
    (hl : Live a w) (hc : Call.Frames a c) :
    Untouched a w (Call.run (Ptr.addr a) c w) := by
  cases c with
  | get => exact afterZero_untouched a w hl
  | isPresent => exact Untouched_refl a w hl
  | orElse d => exact Untouched_refl a w hl
  | orElseGet p => exact OrElseGet_untouched a p w hl hc
  | orElseError e => exact afterZero_untouched a w hl
  | filter q => exact Filter_untouched a q w hl hc
  | ifPresent k => exact IfPresent_untouched a k w hl hc

theorem runCalls_untouched {T σ : Type} [Inhabited T] (a : Nat) (cs : List (Call T σ)) :
    ∀ (w : World T σ), Live a w → (∀ c ∈ cs, Call.Frames a c) →
      Untouched a w (runCalls (Ptr.addr a) cs w) := by
  induction cs with
  | nil =>
    intro w hl _
    exact Untouched_refl a w hl
  | cons c cs ih =>
    intro w hl hcs
    have h1 := run_untouched a c w hl (hcs c (List.mem_cons_self c cs))
    have h2 := ih (Call.run (Ptr.addr a) c w) h1.1
      (fun d hd => hcs d (List.mem_cons_of_mem c hd))
    exact Untouched_trans a w _ _ h1 h2

theorem Filter_view {T σ : Type} (a : Nat)
    (q : T → World T σ → Bool × World T σ) (w : World T σ) :
    view a (Filter (Ptr.addr a) q w).2 = view a (predicateWorld (Ptr.addr a) q w) := by
  have hf := field_addr a w
  cases hp : (w.vars.mem a).val with
  | nil =>
    rw [hp] at hf
    have hl : load (Ptr.addr a) w = Except.error Fault.nilDereference := by
      simp [load, hf, deref, Except.bind]
    rw [Filter_of_field_nil _ _ _ hf]
    simp [predicateWorld, hl]
  | addr c =>
    rw [hp] at hf
    have hl : load (Ptr.addr a) w = Except.ok (w.cells.mem c) := by
      simp [load, hf, deref, Except.bind]
    rw [Filter_of_field_addr _ _ _ _ hf]
    simp only [predicateWorld, hl]
    cases hb : (q (w.cells.mem c) w).1 with
    | false => simp
    | true =>
      simp only [if_true]
      have hf1 := field_addr a (q (w.cells.mem c) w).2
      cases hp1 : ((q (w.cells.mem c) w).2.vars.mem a).val with
      | nil =>
        rw [hp1] at hf1
        have hl1 : load (Ptr.addr a) (q (w.cells.mem c) w).2
            = Except.error Fault.nilDereference := by
          simp [load, hf1, deref, Except.bind]
        simp [hl1]
      | addr c1 =>
        rw [hp1] at hf1
        have hl1 : load (Ptr.addr a) (q (w.cells.mem c) w).2
            = Except.ok ((q (w.cells.mem c) w).2.cells.mem c1) := by
          simp [load, hf1, deref, Except.bind]
        simp only [hl1]
        by_cases hc : c1 = (q (w.cells.mem c) w).2.cells.next
        · simp [view, hp1, deref, Some, alloc, hc]
        · simp [view, hp1, deref, Some, alloc, hc]

theorem write_vars {T σ : Type} (a : Nat) (u : T) (w : World T σ) :
    (write a u w).vars = w.vars := rfl

theorem write_cells_of_ne {T σ : Type} (a c : Nat) (u : T) (w : World T σ) (h : c ≠ a) :
    (write a u w).cells.mem c = w.cells.mem c := by
  simp [write, assign, h]

theorem write_cells_self {T σ : Type} (a : Nat) (u : T) (w : World T σ) :
    (write a u w).cells.mem a = u := by
  simp [write, assign]

theorem writeAll_vars {T σ : Type} (ws : List (Nat × T)) :
    ∀ w : World T σ, (writeAll ws w).vars = w.vars := by
  induction ws with
  | nil => intro w; rfl
  | cons x xs ih => intro w; exact (ih (write x.1 x.2 w)).trans (write_vars x.1 x.2 w)

theorem writeAll_cells_of_ne {T σ : Type} (c : Nat) (ws : List (Nat × T)) :
    ∀ w : World T σ, (∀ x ∈ ws, x.1 ≠ c) → (writeAll ws w).cells.mem c = w.cells.mem c := by
  induction ws with
  | nil => intro w _; rfl
  | cons x xs ih =>
    intro w h
    have h1 := ih (write x.1 x.2 w) (fun y hy => h y (List.mem_cons_of_mem x hy))
    have h2 := write_cells_of_ne x.1 c x.2 w (Ne.symm (h x (List.mem_cons_self x xs)))
    exact h1.trans h2

theorem field_of_vars {T σ : Type} (r : Ptr) (w w1 : World T σ) (h : w1.vars = w.vars) :
    field r w1 = field r w := by
  simp [field, h]

theorem observe_ok {T σ : Type} [Inhabited T] (o : Option T) (w : World T σ) :
    observe (Except.ok o, w) =
      match o.val with
      | Ptr.nil => Except.ok (false, (default, error.errNoElement {}))
      | Ptr.addr c => Except.ok (true, (w.cells.mem c, error.nil)) := by
  have hf := field_declare o w
  cases hp : o.val with
  | nil =>
    rw [hp] at hf
    simp [observe, IsPresent_of_field _ _ _ hf, Get_of_field_nil _ _ hf, Except.bind]
  | addr c =>
    rw [hp] at hf
    simp only [observe]
    rw [IsPresent_of_field _ _ _ hf, Get_of_field_addr _ _ _ hf]
    simp [Except.bind, declare]

theorem Filter_pure_of_nil {T σ : Type} (r : Ptr) (p : T → Bool) (w : World T σ)
    (h : field r w = Except.ok Ptr.nil) :
    Filter r (purePredicate p) w = (Except.ok None, w) :=
  Filter_of_field_nil r _ w h

theorem Filter_pure_of_addr {T σ : Type} (r : Ptr) (p : T → Bool) (w : World T σ) (c : Nat)
    (h : field r w = Except.ok (Ptr.addr c)) :
    Filter r (purePredicate p) w =
      if p (w.cells.mem c) then
        (Except.ok (Some (w.cells.mem c) w.cells).1,
          { w with cells := (Some (w.cells.mem c) w.cells).2 })
      else
        (Except.ok None, w) := by
  have hl : load r w = Except.ok (w.cells.mem c) := by
    simp [load, h, deref, Except.bind]
  rw [Filter_of_field_addr _ _ _ _ h]
  simp [purePredicate, hl]

theorem observe_Filter_pure_of_nil {T σ : Type} [Inhabited T] (r : Ptr) (p : T → Bool)
    (w : World T σ) (h : field r w = Except.ok Ptr.nil) :
    observe (Filter r (purePredicate p) w)
      = Except.ok (false, (default, error.errNoElement {})) := by
  rw [Filter_pure_of_nil r p w h, observe_ok]
  rfl

theorem observe_Filter_pure_of_addr {T σ : Type} [Inhabited T] (r : Ptr) (p : T → Bool)
    (w : World T σ) (c : Nat) (h : field r w = Except.ok (Ptr.addr c)) :
    observe (Filter r (purePredicate p) w)
      = if p (w.cells.mem c) then Except.ok (true, (w.cells.mem c, error.nil))
        else Except.ok (false, (default, error.errNoElement {})) := by
  rw [Filter_pure_of_addr r p w c h]
  by_cases hp : p (w.cells.mem c) = true
  · simp [hp, observe_ok, Some, alloc]
  · simp [hp, observe_ok, None]

theorem observe_filterTwice_pure_of_nil {T σ : Type} [Inhabited T] (r : Ptr)
    (p q : T → Bool) (w : World T σ) (h : field r w = Except.ok Ptr.nil) :
    observe (filterTwice r (purePredicate p) (purePredicate q) w)
      = Except.ok (false, (default, error.errNoElement {})) := by
  have h1 : filterTwice r (purePredicate p) (purePredicate q) w
      = Filter (declare None w).1 (purePredicate q) (declare None w).2 := by
    simp [filterTwice, Filter_pure_of_nil r p w h]
  rw [h1]
  exact observe_Filter_pure_of_nil _ q _ (by simpa [None] using field_declare None w)

theorem observe_filterTwice_pure_of_addr {T σ : Type} [Inhabited T] (r : Ptr)
    (p q : T → Bool) (w : World T σ) (c : Nat) (h : field r w = Except.ok (Ptr.addr c)) :
    observe (filterTwice r (purePredicate p) (purePredicate q) w)
      = if p (w.cells.mem c) && q (w.cells.mem c) then
          Except.ok (true, (w.cells.mem c, error.nil))
        else Except.ok (false, (default, error.errNoElement {})) := by
  by_cases hp : p (w.cells.mem c) = true
  · have h1 : filterTwice r (purePredicate p) (purePredicate q) w
        = Filter (declare (Some (w.cells.mem c) w.cells).1
              { w with cells := (Some (w.cells.mem c) w.cells).2 }).1 (purePredicate q)
            (declare (Some (w.cells.mem c) w.cells).1
              { w with cells := (Some (w.cells.mem c) w.cells).2 }).2 := by
      simp [filterTwice, Filter_pure_of_addr r p w c h, hp]
    rw [h1]
    have hfd : field (declare (Some (w.cells.mem c) w.cells).1
              { w with cells := (Some (w.cells.mem c) w.cells).2 }).1
            (declare (Some (w.cells.mem c) w.cells).1
              { w with cells := (Some (w.cells.mem c) w.cells).2 }).2
        = Except.ok (Ptr.addr w.cells.next) := field_declare _ _
    rw [observe_Filter_pure_of_addr _ q _ _ hfd]
    simp [declare, Some, alloc, hp]
  · have h1 : filterTwice r (purePredicate p) (purePredicate q) w
        = Filter (declare None w).1 (purePredicate q) (declare None w).2 := by
      simp [filterTwice, Filter_pure_of_addr r p w c h, hp]
    rw [h1, observe_Filter_pure_of_nil _ q _ (by simpa [None] using field_declare None w)]
    simp [hp]

/-! ## Claims -/

/-- C1: for every type `T` and value `v`, after `opt := Some(v)`,
`opt.IsPresent()` is true and `opt.Get()` returns `(v, nil)`. -/
theorem C1_Some_IsPresent_Get {T σ : Type} [Inhabited T] (v : T) (w : World T σ) :
    IsPresent (varSome v w).1 (varSome v w).2 = Except.ok true ∧
      Get (varSome v w).1 (varSome v w).2 = Except.ok (v, error.nil) := by
  constructor
  · rw [IsPresent_of_field _ _ _ (field_varSome v w)]
    simp
  · rw [Get_of_field_addr _ _ _ (field_varSome v w), cell_varSome]

/-- C2: for every type `T`, after `opt := None[T]()`, `opt.IsPresent()` is
false and `opt.Get()` returns the zero value of `T` together with
`ErrNoElement{}`, which is a non-nil error. -/
theorem C2_None_IsPresent_Get {T σ : Type} [Inhabited T] (w : World T σ) :
    IsPresent (varNone w).1 (varNone w : Ptr × World T σ).2 = Except.ok false ∧
      Get (varNone w).1 (varNone w : Ptr × World T σ).2
        = Except.ok (default, error.errNoElement {}) ∧
      error.errNoElement {} ≠ error.nil := by
  refine ⟨?_, Get_of_field_nil _ _ (field_varNone w), by simp⟩
  rw [IsPresent_of_field _ _ _ (field_varNone w)]
  simp

/-- C3: for every Option variable, in every world, `Get` returns a nil error
together with the held value iff `IsPresent` is true, returns exactly
`ErrNoElement{}` together with the zero value of `T` iff `IsPresent` is false,
both calls return, and no other error value comes out of `Get`. -/
theorem C3_Get_iff_IsPresent {T σ : Type} [Inhabited T] (a : Nat) (w : World T σ) :
    (IsPresent (Ptr.addr a) w = Except.ok true ↔
        ∃ v, load (Ptr.addr a) w = Except.ok v ∧
          Get (Ptr.addr a) w = Except.ok (v, error.nil)) ∧
      (IsPresent (Ptr.addr a) w = Except.ok true ↔
        ∃ v, Get (Ptr.addr a) w = Except.ok (v, error.nil)) ∧
      (IsPresent (Ptr.addr a) w = Except.ok false ↔
        Get (Ptr.addr a) w = Except.ok (default, error.errNoElement {})) ∧
      (∃ b, IsPresent (Ptr.addr a) w = Except.ok b) ∧
      (∃ r, Get (Ptr.addr a) w = Except.ok r) ∧
      (∀ v e, Get (Ptr.addr a) w = Except.ok (v, e) →
        e = error.nil ∨ e = error.errNoElement {}) := by
  have hf := field_addr a w
  cases hp : (w.vars.mem a).val with
  | nil =>
    rw [hp] at hf
    have hg := Get_of_field_nil _ _ hf
    have hi := IsPresent_of_field _ _ _ hf
    have hl : load (Ptr.addr a) w = Except.error Fault.nilDereference := by
      simp [load, hf, deref, Except.bind]
    rw [hg, hi, hl]
    simp
  | addr c =>
    rw [hp] at hf
    have hg := Get_of_field_addr _ _ _ hf
    have hi := IsPresent_of_field _ _ _ hf
    have hl : load (Ptr.addr a) w = Except.ok (w.cells.mem c) := by
      simp [load, hf, deref, Except.bind]
    rw [hg, hi, hl]
    simp

/-- C4: after `opt := NewOptionFromPtr(nil)` the option is empty (`IsPresent`
false, `Get` fails with `ErrNoElement`), and for every non-nil pointer `p`
whose pointee is `v`, after `opt := NewOptionFromPtr(p)` it is occupied with
value `v` (`IsPresent` true, `Get` returns `(v, nil)`). -/
theorem C4_NewOptionFromPtr {T σ : Type} [Inhabited T] (w : World T σ) :
    (IsPresent (varFromPtr Ptr.nil w).1 (varFromPtr Ptr.nil w).2 = Except.ok false ∧
        Get (varFromPtr Ptr.nil w).1 (varFromPtr Ptr.nil w).2
          = Except.ok (default, error.errNoElement {})) ∧
      (∀ (p : Ptr) (v : T), deref w.cells p = Except.ok v →
        IsPresent (varFromPtr p w).1 (varFromPtr p w).2 = Except.ok true ∧
          Get (varFromPtr p w).1 (varFromPtr p w).2 = Except.ok (v, error.nil)) := by
  refine ⟨⟨?_, Get_of_field_nil _ _ (field_varFromPtr Ptr.nil w)⟩, ?_⟩
  · rw [IsPresent_of_field _ _ _ (field_varFromPtr Ptr.nil w)]
    simp
  · intro p v h
    cases p with
    | nil => simp [deref] at h
    | addr c =>
      have hv : w.cells.mem c = v := by simpa [deref] using h
      refine ⟨?_, ?_⟩
      · rw [IsPresent_of_field _ _ _ (field_varFromPtr (Ptr.addr c) w)]
        simp
      · rw [Get_of_field_addr _ _ _ (field_varFromPtr (Ptr.addr c) w)]
        simp [varFromPtr, declare, hv]

/-- C4 at a concrete input: in a world whose cell 3 holds 5, the option made
from the pointer to cell 3 is occupied with 5. -/
theorem C4_NewOptionFromPtr_witness :
    IsPresent (varFromPtr (Ptr.addr 3) (constWorld 5 ())).1
        (varFromPtr (Ptr.addr 3) (constWorld 5 () : World Nat Unit)).2 = Except.ok true ∧
      Get (varFromPtr (Ptr.addr 3) (constWorld 5 ())).1
        (varFromPtr (Ptr.addr 3) (constWorld 5 () : World Nat Unit)).2
        = Except.ok (5, error.nil) :=
  (C4_NewOptionFromPtr (constWorld 5 ())).2 (Ptr.addr 3) 5 rfl

/-- C5: if `err` is non-nil then after `opt := NewOptionFromValueOrError(v,
err)` the option is empty regardless of `v`; if `err` is nil then it is
occupied and its `Get` returns `(v, nil)`. -/
theorem C5_NewOptionFromValueOrError {T σ : Type} [Inhabited T] (v : T) (err : error)
    (w : World T σ) :
    (err ≠ error.nil →
        IsPresent (varFromValueOrError v err w).1 (varFromValueOrError v err w).2
            = Except.ok false ∧
          Get (varFromValueOrError v err w).1 (varFromValueOrError v err w).2
            = Except.ok (default, error.errNoElement {})) ∧
      (err = error.nil →
        IsPresent (varFromValueOrError v err w).1 (varFromValueOrError v err w).2
            = Except.ok true ∧
          Get (varFromValueOrError v err w).1 (varFromValueOrError v err w).2
            = Except.ok (v, error.nil)) := by
  constructor
  · intro h
    rw [varFromValueOrError_err v err w h]
    refine ⟨?_, Get_of_field_nil _ _ (field_varNone w)⟩
    rw [IsPresent_of_field _ _ _ (field_varNone w)]
    simp
  · intro h
    subst h
    rw [varFromValueOrError_nil]
    refine ⟨?_, ?_⟩
    · rw [IsPresent_of_field _ _ _ (field_varSome v w)]
      simp
    · rw [Get_of_field_addr _ _ _ (field_varSome v w), cell_varSome]

/-- C5 at concrete inputs: with the error tagged 7 the result is empty, with a
nil error it is occupied with 5. -/
theorem C5_NewOptionFromValueOrError_witness :
    IsPresent (varFromValueOrError 5 (error.other 7) (constWorld 0 ())).1
        (varFromValueOrError 5 (error.other 7) (constWorld 0 () : World Nat Unit)).2
        = Except.ok false ∧
      Get (varFromValueOrError 5 error.nil (constWorld 0 ())).1
          (varFromValueOrError 5 error.nil (constWorld 0 () : World Nat Unit)).2
        = Except.ok (5, error.nil) :=
  ⟨((C5_NewOptionFromValueOrError 5 (error.other 7) (constWorld 0 ())).1 (by decide)).1,
    ((C5_NewOptionFromValueOrError 5 error.nil (constWorld 0 ())).2 rfl).2⟩

/-- C6: for all values `v` and `d`, after `opt := Some(v)`, `opt.OrElse(d)`
equals `v` whatever `d` is, and after `opt := None[T]()`, `opt.OrElse(d)`
equals `d`. -/
theorem C6_OrElse {T σ : Type} (v d : T) (w : World T σ) :
    OrElse (varSome v w).1 d (varSome v w).2 = Except.ok v ∧
      OrElse (varNone w).1 d (varNone w).2 = Except.ok d := by
  constructor
  · rw [OrElse_of_field_addr _ _ _ _ (field_varSome v w), cell_varSome]
  · exact OrElse_of_field_nil _ _ _ (field_varNone w)

/-- C7: for every value `v` and provider `p`, after `opt := Some(v)`,
`opt.OrElseGet(p)` returns `v` and invokes `p` zero times (the world, call
counter included, is left as it was); after `opt := None[T]()`,
`opt.OrElseGet(p)` invokes `p` exactly once (the counter goes up by one) and
returns the result of `p`; and `None[int]().OrElseGet(func() int { return 10 })`
is 10. -/
theorem C7_OrElseGet {T σ : Type} (v : T) (provider : World T σ → T × World T σ)
    (w : World T (σ × Nat)) :
    OrElseGet (varSome v w).1 (counted provider) (varSome v w).2
        = (Except.ok v, (varSome v w).2) ∧
      ((OrElseGet (varNone w).1 (counted provider) (varNone w).2).1
          = Except.ok (provider
              { cells := (varNone w).2.cells, vars := (varNone w).2.vars, caller := w.caller.1 }).1 ∧
        (OrElseGet (varNone w).1 (counted provider) (varNone w).2).2.caller.2
          = w.caller.2 + 1) ∧
      (∀ u : World Int σ,
        OrElseGet (varNone u).1 (pureProvider 10) (varNone u).2
          = (Except.ok 10, (varNone u).2)) := by
  refine ⟨?_, ⟨?_, ?_⟩, ?_⟩
  · rw [OrElseGet_of_field_addr _ _ _ _ (field_varSome v w), cell_varSome]
  · rw [OrElseGet_of_field_nil _ _ _ (field_varNone w)]
    rfl
  · rw [OrElseGet_of_field_nil _ _ _ (field_varNone w)]
    rfl
  · intro u
    rw [OrElseGet_of_field_nil _ _ _ (field_varNone u)]
    rfl

/-- C8: for every value `v` and error `e` (a nil `e` included), after
`opt := Some(v)`, `opt.OrElseError(e)` returns `(v, nil)`, and after
`opt := None[T]()`, `opt.OrElseError(e)` returns the zero value of `T` with
exactly `e`, so `ErrNoElement` comes out only when the caller passed it. -/
theorem C8_OrElseError {T σ : Type} [Inhabited T] (v : T) (e : error) (w : World T σ) :
    OrElseError (varSome v w).1 e (varSome v w).2 = Except.ok (v, error.nil) ∧
      OrElseError (varNone w).1 e (varNone w).2 = Except.ok (default, e) ∧
      (∀ r, OrElseError (varNone w).1 e (varNone w).2 = Except.ok r →
        r.2 = error.errNoElement {} → e = error.errNoElement {}) := by
  have hn := OrElseError_of_field_nil _ e _ (field_varNone w)
  refine ⟨?_, hn, ?_⟩
  · rw [OrElseError_of_field_addr _ _ _ _ (field_varSome v w), cell_varSome]
  · intro r hr h
    rw [hn] at hr
    injection hr with hr
    rw [← hr] at h
    exact h

/-- C8 at a concrete input: an empty option asked with the error tagged 7
returns zero and that error; asked with a nil error it returns zero and nil. -/
theorem C8_OrElseError_witness :
    OrElseError (varNone (constWorld 0 ())).1 (error.other 7)
          (varNone (constWorld 0 () : World Nat Unit)).2
        = Except.ok (0, error.other 7) ∧
      OrElseError (varNone (constWorld 0 ())).1 error.nil
          (varNone (constWorld 0 () : World Nat Unit)).2
        = Except.ok (0, error.nil) :=
  ⟨(C8_OrElseError 0 (error.other 7) (constWorld 0 ())).2.1,
    (C8_OrElseError 0 error.nil (constWorld 0 ())).2.1⟩

/-- Where `Filter` on a fresh `Some(v)` gives the value the predicate was asked
about: for every value `v` and every predicate that neither assigns the
variable `opt` nor writes the cell `Some` made for it, after `opt := Some(v)`,
`opt.Filter(pred)` returns an option that is occupied with value `v` iff
`pred(v)` is true, and is empty otherwise; after `opt := None[T]()`,
`opt.Filter(pred)` is empty for every `pred`. -/
theorem Filter_Some_of_kept {T σ : Type} [Inhabited T] (v : T)
    (predicate : T → World T σ → Bool × World T σ) (w : World T σ)
    (hvar : KeepsVar predicate w.vars.next) (hcell : KeepsCell predicate w.cells.next) :
    (∃ r w1,
        Filter (varSome v w).1 predicate (varSome v w).2 = (Except.ok r, w1) ∧
        ((IsPresent (declare r w1).1 (declare r w1).2 = Except.ok true ∧
            Get (declare r w1).1 (declare r w1).2 = Except.ok (v, error.nil)) ↔
          (predicate v (varSome v w).2).1 = true) ∧
        (IsPresent (declare r w1).1 (declare r w1).2 = Except.ok false ↔
          (predicate v (varSome v w).2).1 = false) ∧
        ((predicate v (varSome v w).2).1 = false → r = None)) ∧
      (∀ (τ : Type) (q : T → World T τ → Bool × World T τ) (u : World T τ),
        Filter (varNone u).1 q (varNone u).2 = (Except.ok None, (varNone u).2) ∧
          IsPresent (declare (None : Option T) (varNone u).2).1
            (declare (None : Option T) (varNone u).2).2 = Except.ok false) := by
  constructor
  · have hF := Filter_of_field_addr _ predicate _ _ (field_varSome v w)
    rw [cell_varSome] at hF
    have hl : load (varSome v w).1 (predicate v (varSome v w).2).2 = Except.ok v := by
      have h1 := hvar v (varSome v w).2 (by simp [varSome, declare, alloc])
      have h2 := hcell v (varSome v w).2 (by simp [varSome, declare, Some, alloc])
      rw [cell_varSome] at h2
      have h3 : (varSome v w).2.vars.mem w.vars.next = { val := Ptr.addr w.cells.next } := by
        simp [varSome, declare, Some, alloc]
      rw [h3] at h1
      have h4 : (varSome v w).1 = Ptr.addr w.vars.next := by
        simp [varSome, declare, alloc]
      rw [h4]
      simp [load, field, deref, Except.bind, h1, h2]
    rw [hl] at hF
    rcases hq : predicate v (varSome v w).2 with ⟨b, P⟩
    rw [hq] at hF
    cases b with
    | false =>
      refine ⟨None, P, by simpa using hF, ?_, ?_, fun _ => rfl⟩
      · rw [IsPresent_of_field _ _ _ (field_declare _ _)]
        simp [None]
      · rw [IsPresent_of_field _ _ _ (field_declare _ _)]
        simp [None]
    | true =>
      have hfd : field (declare (Some v P.cells).1 { P with cells := (Some v P.cells).2 }).1
          (declare (Some v P.cells).1 { P with cells := (Some v P.cells).2 }).2
          = Except.ok (Ptr.addr P.cells.next) := field_declare _ _
      refine ⟨(Some v P.cells).1, { P with cells := (Some v P.cells).2 },
        by simpa using hF, ?_, ?_, ?_⟩
      · rw [IsPresent_of_field _ _ _ hfd, Get_of_field_addr _ _ _ hfd]
        simp [declare, Some, alloc]
      · rw [IsPresent_of_field _ _ _ hfd]
        simp
      · intro h
        cases h
  · intro τ q u
    refine ⟨Filter_of_field_nil _ q _ (field_varNone u), ?_⟩
    rw [IsPresent_of_field _ _ _ (field_declare _ _)]
    simp [None]

/-- C9 at the failing input `opt := Some(5); opt.Filter(func(x int) bool
{ opt = Some(8); return true })`: the receiver is occupied with 5, the
predicate is total and returns true on 5, and the option `Filter` returns is
occupied with 8, not with 5, because `Some[T](*opt.val)` reads the receiver
again after the predicate has run. -/
theorem C9_Filter_reread :
    (varSome 5 (constWorld 0 () : World Nat Unit)).1 = Ptr.addr 0 ∧
      Get (Ptr.addr 0) worldSome5 = Except.ok (5, error.nil) ∧
      (reseating 0 8 5 worldSome5).1 = true ∧
      observe (Filter (Ptr.addr 0) (reseating 0 8) worldSome5)
        = Except.ok (true, (8, error.nil)) ∧
      observe (Filter (Ptr.addr 0) (reseating 0 8) worldSome5)
        ≠ Except.ok (true, (5, error.nil)) := by
  have h8 : observe (Filter (Ptr.addr 0) (reseating 0 8) worldSome5)
      = Except.ok (true, (8, error.nil)) := rfl
  refine ⟨rfl, rfl, rfl, h8, ?_⟩
  rw [h8]
  intro h
  injection h with h
  injection h with _ h
  injection h with h _
  exact absurd h (by decide)

/-- C10: `Filter` never invokes the predicate on an empty receiver (the world,
call log included, is left as it was), and on an occupied receiver holding `v`
it invokes the predicate exactly once, with argument `v` (the call log grows by
exactly `[v]`, whether or not `Filter` then returns). -/
theorem C10_Filter_calls {T σ : Type} (a : Nat)
    (predicate : T → World T σ → Bool × World T σ) (w : World T (σ × List T)) :
    (IsPresent (Ptr.addr a) w = Except.ok false →
        Filter (Ptr.addr a) (logged predicate) w = (Except.ok None, w)) ∧
      (∀ v, IsPresent (Ptr.addr a) w = Except.ok true →
        load (Ptr.addr a) w = Except.ok v →
        (Filter (Ptr.addr a) (logged predicate) w).2.caller.2 = w.caller.2 ++ [v]) := by
  have hf := field_addr a w
  cases hp : (w.vars.mem a).val with
  | nil =>
    rw [hp] at hf
    refine ⟨fun _ => Filter_of_field_nil _ _ _ hf, ?_⟩
    intro v hi
    rw [IsPresent_of_field _ _ _ hf] at hi
    simp at hi
  | addr c =>
    rw [hp] at hf
    constructor
    · intro hi
      rw [IsPresent_of_field _ _ _ hf] at hi
      simp at hi
    · intro v _ hl
      have hv : w.cells.mem c = v := by
        simpa [load, hf, deref, Except.bind] using hl
      rw [Filter_of_field_addr _ _ _ _ hf, hv]
      cases hb : (logged predicate v w).1 with
      | false => simp [logged]
      | true =>
        cases hl1 : load (Ptr.addr a) (logged predicate v w).2 with
        | error f => simp [logged]
        | ok v1 => simp [logged]

/-- C10 at a concrete input: an option on cell 3 of a world whose cells hold 5
has its predicate called once, with 5; the empty option leaves the log
alone. -/
theorem C10_Filter_calls_witness :
    (Filter (varFromPtr (Ptr.addr 3) (constWorld 5 ((), []) : World Nat (Unit × List Nat))).1
          (logged (purePredicate fun x => x == 5))
          (varFromPtr (Ptr.addr 3)
            (constWorld 5 ((), []) : World Nat (Unit × List Nat))).2).2.caller.2 = [5] ∧
      Filter (Ptr.addr 0) (logged (purePredicate fun x => x == 5))
          (constWorld 5 ((), []) : World Nat (Unit × List Nat))
        = (Except.ok None, constWorld 5 ((), [])) :=
  ⟨(C10_Filter_calls 0 (purePredicate fun x => x == 5)
      (varFromPtr (Ptr.addr 3) (constWorld 5 ((), []))).2).2 5 rfl rfl,
    (C10_Filter_calls 0 (purePredicate fun x => x == 5) (constWorld 5 ((), []))).1 rfl⟩

/-- C11: for every value `v` and consumer `c`, after `opt := Some(v)`,
`opt.IfPresent(c)` invokes `c` exactly once, with argument `v` (the call log
grows by exactly `[v]` and the world is the one that call of `c` leaves); after
`opt := None[T]()`, `opt.IfPresent(c)` invokes `c` zero times (the world, call
log included, is left as it was). -/
theorem C11_IfPresent {T σ : Type} (v : T) (consumer : T → World T σ → World T σ)
    (w : World T (σ × List T)) :
    (IfPresent (varSome v w).1 (loggedConsumer consumer) (varSome v w).2
          = (Except.ok (), loggedConsumer consumer v (varSome v w).2) ∧
        (IfPresent (varSome v w).1 (loggedConsumer consumer) (varSome v w).2).2.caller.2
          = w.caller.2 ++ [v]) ∧
      IfPresent (varNone w).1 (loggedConsumer consumer) (varNone w).2
        = (Except.ok (), (varNone w).2) := by
  refine ⟨⟨?_, ?_⟩, IfPresent_of_field_nil _ _ _ (field_varNone w)⟩
  · rw [IfPresent_of_field_addr _ _ _ _ (field_varSome v w), cell_varSome]
  · rw [IfPresent_of_field_addr _ _ _ _ (field_varSome v w), cell_varSome]
    rfl

/-- C12, as stated, fails: with `val := 5; opt := NewOptionFromPtr(&val)`,
`opt.Get()` returns `(5, nil)`, and after the interleaved call
`opt.Filter(func(x int) bool { val = 9; return x == 5 })` it returns
`(9, nil)`. -/
theorem C12_counterexample :
    (varFromPtr (newCell 5 (constWorld 0 () : World Nat Unit)).1
        (newCell 5 (constWorld 0 () : World Nat Unit)).2).1 = Ptr.addr 0 ∧
      Get (Ptr.addr 0) worldFromPtr5 = Except.ok (5, error.nil) ∧
      Get (Ptr.addr 0)
          (runCalls (Ptr.addr 0) [Call.filter (overwriting 0 9 fun x => x == 5)]
            worldFromPtr5)
        = Except.ok (9, error.nil) ∧
      Get (Ptr.addr 0)
          (runCalls (Ptr.addr 0) [Call.filter (overwriting 0 9 fun x => x == 5)]
            worldFromPtr5)
        ≠ Get (Ptr.addr 0) worldFromPtr5 := by
  have h9 : Get (Ptr.addr 0)
      (runCalls (Ptr.addr 0) [Call.filter (overwriting 0 9 fun x => x == 5)] worldFromPtr5)
      = Except.ok (9, error.nil) := rfl
  have h5 : Get (Ptr.addr 0) worldFromPtr5 = Except.ok (5, error.nil) := rfl
  refine ⟨rfl, h5, h9, ?_⟩
  rw [h9, h5]
  intro h
  injection h with h
  injection h with h _
  exact absurd h (by decide)

/-- C12, amended: for every Option variable that was constructed, `IsPresent`
and `Get` return; what they return depends only on the variable and on the cell
it points to; calling either twice gives the same result; and after any
sequence of the other methods on the same variable (`OrElse`, `OrElseGet`,
`OrElseError`, `Filter`, `IfPresent`) whose callbacks do not themselves assign
the variable or write its cell, both still return what they returned before. -/
theorem C12_IsPresent_Get_stable {T σ : Type} [Inhabited T] (a : Nat)
    (calls : List (Call T σ)) (w : World T σ) (hlive : Live a w)
    (hframes : ∀ c ∈ calls, Call.Frames a c) :
    (∃ b, IsPresent (Ptr.addr a) w = Except.ok b) ∧
      (∃ r, Get (Ptr.addr a) w = Except.ok r) ∧
      (∀ w1 : World T σ, view a w1 = view a w →
        IsPresent (Ptr.addr a) w1 = IsPresent (Ptr.addr a) w ∧
          Get (Ptr.addr a) w1 = Get (Ptr.addr a) w) ∧
      IsPresent (Ptr.addr a) (Call.run (Ptr.addr a) Call.isPresent w)
        = IsPresent (Ptr.addr a) w ∧
      Get (Ptr.addr a) (Call.run (Ptr.addr a) Call.get w) = Get (Ptr.addr a) w ∧
      IsPresent (Ptr.addr a) (Call.run (Ptr.addr a) Call.get w)
        = IsPresent (Ptr.addr a) w ∧
      IsPresent (Ptr.addr a) (runCalls (Ptr.addr a) calls w) = IsPresent (Ptr.addr a) w ∧
      Get (Ptr.addr a) (runCalls (Ptr.addr a) calls w) = Get (Ptr.addr a) w := by
  have hU := runCalls_untouched a calls w hlive hframes
  have hIG := IsPresent_Get_of_view a w _ hU.2
  have hZ := IsPresent_Get_of_view a w _ (afterZero_view a w)
  refine ⟨?_, ?_, fun w1 h => IsPresent_Get_of_view a w w1 h, rfl, hZ.2, hZ.1,
    hIG.1, hIG.2⟩
  · exact ⟨_, IsPresent_of_field _ _ _ (field_addr a w)⟩
  · cases hp : (w.vars.mem a).val with
    | nil => exact ⟨_, Get_of_field_nil _ _ (hp ▸ field_addr a w)⟩
    | addr c => exact ⟨_, Get_of_field_addr _ _ c (hp ▸ field_addr a w)⟩

/-- C12 amended, at a concrete input: on the variable made by `opt := Some(5)`,
after the sample sequence of calls `Get` still returns `(5, nil)` and
`IsPresent` still returns true. -/
theorem C12_IsPresent_Get_stable_witness :
    IsPresent (Ptr.addr 0)
        (runCalls (Ptr.addr 0) sampleCalls (varSome 5 (constWorld 0 ())).2) = Except.ok true ∧
      Get (Ptr.addr 0)
        (runCalls (Ptr.addr 0) sampleCalls (varSome 5 (constWorld 0 ())).2)
        = Except.ok (5, error.nil) := by
  have h := C12_IsPresent_Get_stable 0 sampleCalls (varSome 5 (constWorld 0 ())).2
    (by
      refine ⟨by simp [varSome, declare, alloc, constWorld, constStore], ?_⟩
      intro c hc
      simp [varSome, declare, alloc, Some, constWorld, constStore] at hc ⊢
      omega)
    (by
      intro c hc
      simp only [sampleCalls, List.mem_cons, List.mem_singleton, List.not_mem_nil,
        or_false] at hc
      rcases hc with rfl | rfl | rfl | rfl | rfl | rfl | rfl
      · trivial
      · exact fun _ u hu => Untouched_refl 0 u hu
      · exact fun u hu => Untouched_refl 0 u hu
      · exact fun _ u hu => Untouched_refl 0 u hu
      · trivial
      · trivial
      · trivial)
  exact ⟨h.2.2.2.2.2.2.1.trans rfl, h.2.2.2.2.2.2.2.trans rfl⟩

/-- C13, as stated, fails: on `opt := Some(5)`, after
`r := opt.Filter(func(x int) bool { opt = None[int](); return false })` the
result `r` is empty and the receiver, which was occupied with 5, is empty
too. -/
theorem C13_counterexample :
    IsPresent (Ptr.addr 0) worldSome5 = Except.ok true ∧
      Get (Ptr.addr 0) worldSome5 = Except.ok (5, error.nil) ∧
      (Filter (Ptr.addr 0) (emptyingRejecting 0) worldSome5).1 = Except.ok None ∧
      IsPresent (Ptr.addr 0) (Filter (Ptr.addr 0) (emptyingRejecting 0) worldSome5).2
        = Except.ok false ∧
      Get (Ptr.addr 0) (Filter (Ptr.addr 0) (emptyingRejecting 0) worldSome5).2
        = Except.ok (0, error.errNoElement {}) :=
  ⟨rfl, rfl, rfl, rfl, rfl⟩

/-- C13, amended: `Filter` itself does not write the receiver.  When `Filter`
returns, the receiver has the presence and the held value it had when the
predicate call returned, so for every predicate that does not itself assign the
receiver variable or write its cell, and in particular for every
side-effect-free predicate, `IsPresent` and `Get` on the receiver return after
the call what they returned before it, whether the result is occupied or
empty. -/
theorem C13_Filter_keeps_receiver {T σ : Type} [Inhabited T] (a : Nat)
    (predicate : T → World T σ → Bool × World T σ) (w : World T σ) :
    (IsPresent (Ptr.addr a) (Filter (Ptr.addr a) predicate w).2
          = IsPresent (Ptr.addr a) (predicateWorld (Ptr.addr a) predicate w) ∧
        Get (Ptr.addr a) (Filter (Ptr.addr a) predicate w).2
          = Get (Ptr.addr a) (predicateWorld (Ptr.addr a) predicate w)) ∧
      ((∀ v, load (Ptr.addr a) w = Except.ok v → view a (predicate v w).2 = view a w) →
        IsPresent (Ptr.addr a) (Filter (Ptr.addr a) predicate w).2
            = IsPresent (Ptr.addr a) w ∧
          Get (Ptr.addr a) (Filter (Ptr.addr a) predicate w).2 = Get (Ptr.addr a) w) ∧
      (∀ p : T → Bool,
        IsPresent (Ptr.addr a) (Filter (Ptr.addr a) (purePredicate p) w).2
            = IsPresent (Ptr.addr a) w ∧
          Get (Ptr.addr a) (Filter (Ptr.addr a) (purePredicate p) w).2
            = Get (Ptr.addr a) w) := by
  have key : ∀ q : T → World T σ → Bool × World T σ,
      (∀ v, load (Ptr.addr a) w = Except.ok v → view a (q v w).2 = view a w) →
      view a (Filter (Ptr.addr a) q w).2 = view a w := by
    intro q hq
    rw [Filter_view]
    cases hl : load (Ptr.addr a) w with
    | error f => simp [predicateWorld, hl]
    | ok v => simpa [predicateWorld, hl] using hq v hl
  refine ⟨IsPresent_Get_of_view a _ _ (Filter_view a predicate w), ?_, ?_⟩
  · intro h
    exact IsPresent_Get_of_view a _ _ (key predicate h)
  · intro p
    exact IsPresent_Get_of_view a _ _ (key (purePredicate p) (fun _ _ => rfl))

/-- C13 amended, at the scenario of the tests: on `opt := Some(5)`, after
`opt.Filter(x != 5)` (empty result) and after `opt.Filter(x == 5)` (occupied
result) the receiver still holds 5. -/
theorem C13_Filter_keeps_receiver_witness :
    Get (Ptr.addr 0)
        (Filter (Ptr.addr 0) (purePredicate fun x => x != 5)
          (varSome (5 : Nat) (constWorld 0 () : World Nat Unit)).2).2
        = Except.ok (5, error.nil) ∧
      Get (Ptr.addr 0)
        (Filter (Ptr.addr 0) (purePredicate fun x => x == 5)
          (varSome (5 : Nat) (constWorld 0 () : World Nat Unit)).2).2
        = Except.ok (5, error.nil) :=
  ⟨((C13_Filter_keeps_receiver 0 (purePredicate fun x => x != 5)
      (varSome (5 : Nat) (constWorld 0 () : World Nat Unit)).2).2.1
        (fun _ _ => rfl)).2.trans rfl,
    ((C13_Filter_keeps_receiver 0 (purePredicate fun x => x == 5)
      (varSome (5 : Nat) (constWorld 0 () : World Nat Unit)).2).2.1
        (fun _ _ => rfl)).2.trans rfl⟩

/-- C14, as stated, fails: with `val := 5; p := &val; opt :=
NewOptionFromPtr(p)`, `opt.Get()` returns `(5, nil)`, and after the caller's
`*p = 7` it returns `(7, nil)`, not `(5, nil)`. -/
theorem C14_counterexample :
    (newCell 5 (constWorld 0 () : World Nat Unit)).1 = Ptr.addr 0 ∧
      deref (newCell 5 (constWorld 0 () : World Nat Unit)).2.cells
        (newCell 5 (constWorld 0 () : World Nat Unit)).1 = Except.ok 5 ∧
      Get (varFromPtr (newCell 5 (constWorld 0 () : World Nat Unit)).1
            (newCell 5 (constWorld 0 () : World Nat Unit)).2).1
          (varFromPtr (newCell 5 (constWorld 0 () : World Nat Unit)).1
            (newCell 5 (constWorld 0 () : World Nat Unit)).2).2
        = Except.ok (5, error.nil) ∧
      Get (varFromPtr (newCell 5 (constWorld 0 () : World Nat Unit)).1
            (newCell 5 (constWorld 0 () : World Nat Unit)).2).1
          (write 0 7 (varFromPtr (newCell 5 (constWorld 0 () : World Nat Unit)).1
            (newCell 5 (constWorld 0 () : World Nat Unit)).2).2)
        = Except.ok (7, error.nil) ∧
      Get (varFromPtr (newCell 5 (constWorld 0 () : World Nat Unit)).1
            (newCell 5 (constWorld 0 () : World Nat Unit)).2).1
          (write 0 7 (varFromPtr (newCell 5 (constWorld 0 () : World Nat Unit)).1
            (newCell 5 (constWorld 0 () : World Nat Unit)).2).2)
        ≠ Except.ok (5, error.nil) := by
  refine ⟨rfl, rfl, rfl, rfl, ?_⟩
  intro h
  have h7 : Get (varFromPtr (newCell 5 (constWorld 0 () : World Nat Unit)).1
            (newCell 5 (constWorld 0 () : World Nat Unit)).2).1
          (write 0 7 (varFromPtr (newCell 5 (constWorld 0 () : World Nat Unit)).1
            (newCell 5 (constWorld 0 () : World Nat Unit)).2).2)
        = Except.ok (7, error.nil) := rfl
  rw [h7] at h
  injection h with h
  injection h with h1 _
  exact absurd h1 (by decide)

/-- C14, amended: an option made by `Some(v)` or by
`NewOptionFromValueOrError(v, nil)` holds a copy of `v` in a cell of its own,
so `Get` keeps returning `(v, nil)` whatever the caller later writes to its own
variables or through its pointers (none of which is that cell); an option made by `NewOptionFromPtr(p)` holds `p` itself, so `Get`
returns the current pointee of `p`: the value last written through `p`, and
the value `p` pointed to at construction as long as nothing is written through
`p`. -/
theorem C14_held_value {T σ : Type} [Inhabited T] (w : World T σ) (ws : List (Nat × T)) :
    (∀ v : T, (∀ x ∈ ws, x.1 ≠ w.cells.next) →
        Get (varSome v w).1 (writeAll ws (varSome v w).2) = Except.ok (v, error.nil) ∧
          Get (varFromValueOrError v error.nil w).1
              (writeAll ws (varFromValueOrError v error.nil w).2)
            = Except.ok (v, error.nil)) ∧
      (∀ c : Nat,
        Get (varFromPtr (Ptr.addr c) w).1 (writeAll ws (varFromPtr (Ptr.addr c) w).2)
            = Except.ok ((writeAll ws (varFromPtr (Ptr.addr c) w).2).cells.mem c, error.nil) ∧
          (∀ u : T,
            Get (varFromPtr (Ptr.addr c) w).1
                (write c u (writeAll ws (varFromPtr (Ptr.addr c) w).2))
              = Except.ok (u, error.nil)) ∧
          ((∀ x ∈ ws, x.1 ≠ c) →
            Get (varFromPtr (Ptr.addr c) w).1 (writeAll ws (varFromPtr (Ptr.addr c) w).2)
              = Except.ok (w.cells.mem c, error.nil))) := by
  constructor
  · intro v hws
    have hS : Get (varSome v w).1 (writeAll ws (varSome v w).2)
        = Except.ok (v, error.nil) := by
      have hf : field (varSome v w).1 (writeAll ws (varSome v w).2)
          = Except.ok (Ptr.addr w.cells.next) :=
        (field_of_vars _ _ _ (writeAll_vars ws _)).trans (field_varSome v w)
      rw [Get_of_field_addr _ _ _ hf,
        writeAll_cells_of_ne w.cells.next ws _ hws,
        cell_varSome]
    refine ⟨hS, ?_⟩
    rw [varFromValueOrError_nil]
    exact hS
  · intro c
    have hf : ∀ u1 : World T σ, u1.vars = (varFromPtr (Ptr.addr c) w).2.vars →
        field (varFromPtr (Ptr.addr c) w).1 u1 = Except.ok (Ptr.addr c) := fun u1 h =>
      (field_of_vars _ _ _ h).trans (field_varFromPtr (Ptr.addr c) w)
    refine ⟨?_, ?_, ?_⟩
    · rw [Get_of_field_addr _ _ _ (hf _ (writeAll_vars ws _))]
    · intro u
      rw [Get_of_field_addr _ _ _ (hf _ ((write_vars c u _).trans (writeAll_vars ws _))),
        write_cells_self]
    · intro hws
      rw [Get_of_field_addr _ _ _ (hf _ (writeAll_vars ws _)),
        writeAll_cells_of_ne c ws _ hws]
      rfl

/-- C14 amended, at a concrete input: after `val := 5; opt := Some(val)`, the
caller's `val = 7` leaves `opt.Get()` at `(5, nil)`. -/
theorem C14_held_value_witness :
    Get (varSome 5 (newCell 5 (constWorld 0 () : World Nat Unit)).2).1
        (writeAll [(0, 7)] (varSome 5 (newCell 5 (constWorld 0 () : World Nat Unit)).2).2)
      = Except.ok (5, error.nil) :=
  ((C14_held_value (newCell 5 (constWorld 0 () : World Nat Unit)).2 [(0, 7)]).1 5
    (by simp [newCell, alloc, constWorld, constStore])).1

/-- C15 at the failing input `opt := Some(5); opt.Filter(func(x int) bool
{ opt = None[int](); return true })`: the receiver is occupied, the predicate
is total, and `Filter` faults with a nil dereference in `Some[T](*opt.val)`,
which reads the receiver again after the predicate has run, without a nil
check. -/
theorem C15_Filter_faults :
    IsPresent (varSome 5 (constWorld 0 () : World Nat Unit)).1
        (varSome 5 (constWorld 0 () : World Nat Unit)).2 = Except.ok true ∧
      (varSome 5 (constWorld 0 () : World Nat Unit)).1 = Ptr.addr 0 ∧
      (Filter (varSome 5 (constWorld 0 () : World Nat Unit)).1 (emptying 0)
          (varSome 5 (constWorld 0 () : World Nat Unit)).2).1
        = Except.error Fault.nilDereference :=
  ⟨rfl, rfl, rfl⟩

/-- Where the methods return: on every Option variable, with any callbacks,
`IsPresent`, `OrElse`, `OrElseGet`, `OrElseError` and `IfPresent` return without
a fault, and the only error `OrElseError` returns is nil or the one the caller
passed; `Filter` returns `None` on an empty receiver without a fault, and on an
occupied receiver its only fault is the second read of the receiver, taken when
the predicate returned true after having assigned an empty option to the
receiver variable. -/
theorem methods_return {T σ : Type} [Inhabited T] (a : Nat) (w : World T σ) :
    (∃ b, IsPresent (Ptr.addr a) w = Except.ok b) ∧
      (∀ d : T, ∃ v, OrElse (Ptr.addr a) d w = Except.ok v) ∧
      (∀ p : World T σ → T × World T σ, ∃ v, (OrElseGet (Ptr.addr a) p w).1 = Except.ok v) ∧
      (∀ e : error, ∃ r, OrElseError (Ptr.addr a) e w = Except.ok r ∧
        (r.2 = error.nil ∨ r.2 = e)) ∧
      (∀ c : T → World T σ → World T σ, (IfPresent (Ptr.addr a) c w).1 = Except.ok ()) ∧
      (∀ q : T → World T σ → Bool × World T σ,
        IsPresent (Ptr.addr a) w = Except.ok false →
          (Filter (Ptr.addr a) q w).1 = Except.ok None) ∧
      (∀ q : T → World T σ → Bool × World T σ,
        (Filter (Ptr.addr a) q w).1 = Except.error Fault.nilDereference ↔
          ∃ v, load (Ptr.addr a) w = Except.ok v ∧ (q v w).1 = true ∧
            ((q v w).2.vars.mem a).val = Ptr.nil) ∧
      (∀ q : T → World T σ → Bool × World T σ,
        (∀ v, load (Ptr.addr a) w = Except.ok v → ((q v w).2.vars.mem a).val ≠ Ptr.nil) →
          ∃ r, (Filter (Ptr.addr a) q w).1 = Except.ok r) ∧
      (∀ p : T → Bool, ∃ r, (Filter (Ptr.addr a) (purePredicate p) w).1 = Except.ok r) := by
  have hf := field_addr a w
  have hFilter : ∀ q : T → World T σ → Bool × World T σ,
      (Filter (Ptr.addr a) q w).1 = Except.error Fault.nilDereference ↔
        ∃ v, load (Ptr.addr a) w = Except.ok v ∧ (q v w).1 = true ∧
          ((q v w).2.vars.mem a).val = Ptr.nil := by
    intro q
    cases hp : (w.vars.mem a).val with
    | nil =>
      rw [hp] at hf
      have hl : load (Ptr.addr a) w = Except.error Fault.nilDereference := by
        simp [load, hf, deref, Except.bind]
      rw [Filter_of_field_nil _ _ _ hf, hl]
      simp
    | addr c =>
      rw [hp] at hf
      have hl : load (Ptr.addr a) w = Except.ok (w.cells.mem c) := by
        simp [load, hf, deref, Except.bind]
      rw [Filter_of_field_addr _ _ _ _ hf, hl]
      cases hb : (q (w.cells.mem c) w).1 with
      | false =>
        constructor
        · intro h
          simp at h
        · rintro ⟨v, hv, hb1, _⟩
          injection hv with hv
          rw [← hv, hb] at hb1
          cases hb1
      | true =>
        have hf1 := field_addr a (q (w.cells.mem c) w).2
        cases hp1 : ((q (w.cells.mem c) w).2.vars.mem a).val with
        | nil =>
          rw [hp1] at hf1
          have hl1 : load (Ptr.addr a) (q (w.cells.mem c) w).2
              = Except.error Fault.nilDereference := by
            simp [load, hf1, deref, Except.bind]
          simp only [if_true, hl1]
          exact ⟨fun _ => ⟨_, rfl, hb, hp1⟩, fun _ => trivial⟩
        | addr c1 =>
          rw [hp1] at hf1
          have hl1 : load (Ptr.addr a) (q (w.cells.mem c) w).2
              = Except.ok ((q (w.cells.mem c) w).2.cells.mem c1) := by
            simp [load, hf1, deref, Except.bind]
          simp only [if_true, hl1]
          constructor
          · intro h
            cases h
          · rintro ⟨v, hv, _, hn⟩
            injection hv with hv
            rw [← hv, hp1] at hn
            cases hn
  have hReturns : ∀ q : T → World T σ → Bool × World T σ,
      (∀ v, load (Ptr.addr a) w = Except.ok v → ((q v w).2.vars.mem a).val ≠ Ptr.nil) →
        ∃ r, (Filter (Ptr.addr a) q w).1 = Except.ok r := by
    intro q hq
    cases hr : (Filter (Ptr.addr a) q w).1 with
    | ok r => exact ⟨r, rfl⟩
    | error f =>
      cases f
      obtain ⟨v, hv, _, hn⟩ := (hFilter q).mp hr
      exact absurd hn (hq v hv)
  refine ⟨⟨_, IsPresent_of_field _ _ _ hf⟩, ?_, ?_, ?_, ?_, ?_, hFilter, hReturns, ?_⟩
  · intro d
    cases hp : (w.vars.mem a).val with
    | nil => exact ⟨_, OrElse_of_field_nil _ _ _ (hp ▸ hf)⟩
    | addr c => exact ⟨_, OrElse_of_field_addr _ _ _ c (hp ▸ hf)⟩
  · intro p
    cases hp : (w.vars.mem a).val with
    | nil => exact ⟨_, congrArg Prod.fst (OrElseGet_of_field_nil _ p _ (hp ▸ hf))⟩
    | addr c => exact ⟨_, congrArg Prod.fst (OrElseGet_of_field_addr _ p _ c (hp ▸ hf))⟩
  · intro e
    cases hp : (w.vars.mem a).val with
    | nil => exact ⟨_, OrElseError_of_field_nil _ e _ (hp ▸ hf), Or.inr rfl⟩
    | addr c => exact ⟨_, OrElseError_of_field_addr _ e _ c (hp ▸ hf), Or.inl rfl⟩
  · intro c
    cases hp : (w.vars.mem a).val with
    | nil => exact congrArg Prod.fst (IfPresent_of_field_nil _ c _ (hp ▸ hf))
    | addr k => exact congrArg Prod.fst (IfPresent_of_field_addr _ c _ k (hp ▸ hf))
  · intro q hi
    rw [IsPresent_of_field _ _ _ hf] at hi
    have hn : (w.vars.mem a).val = Ptr.nil := by simpa using hi
    exact congrArg Prod.fst (Filter_of_field_nil _ q _ (hn ▸ hf))
  · intro p
    refine hReturns (purePredicate p) ?_
    intro v hv hn
    cases hp : (w.vars.mem a).val with
    | nil =>
      rw [hp] at hf
      simp [load, hf, deref, Except.bind] at hv
    | addr c =>
      simp [purePredicate, hp] at hn

/-- C16: `ErrNoElement` carries no payload beyond its identity: any two
`ErrNoElement` values are equal, also as `error` values, and `Error()` returns
for all of them the constant string "option: no element is present", which
ends with the message "no element is present". -/
theorem C16_ErrNoElement (e1 e2 : ErrNoElement) :
    e1 = e2 ∧
      error.errNoElement e1 = error.errNoElement e2 ∧
      ErrNoElement.Error e1 = ErrNoElement.Error e2 ∧
      ErrNoElement.Error e1 = "option: no element is present" ∧
      ErrNoElement.Error e1 = "option: " ++ "no element is present" ∧
      "no element is present".toList <:+: (ErrNoElement.Error e1).toList := by
  cases e1
  cases e2
  refine ⟨rfl, rfl, rfl, rfl, by decide, ⟨"option: ".toList, [], by decide⟩⟩

/-- C17: `Get` is the special case of `OrElseError` with the generic error:
for every receiver, `opt.Get()` returns the same `(value, error)` pair, or the
same fault, as `opt.OrElseError(ErrNoElement{})`. -/
theorem C17_Get_eq_OrElseError {T σ : Type} [Inhabited T] (opt : Ptr) (w : World T σ) :
    Get opt w = OrElseError opt (error.errNoElement {}) w :=
  rfl

/-- C18: `OrElse` is the eager special case of `OrElseGet`: for every receiver
and value `d`, `opt.OrElseGet(func() T { return d })` returns what
`opt.OrElse(d)` returns, and leaves the world as it was. -/
theorem C18_OrElse_eq_OrElseGet {T σ : Type} (opt : Ptr) (d : T) (w : World T σ) :
    OrElseGet opt (pureProvider d) w = (OrElse opt d w, w) := by
  cases hf : field opt w with
  | error f => simp [OrElseGet, OrElse, hf, Except.bind]
  | ok p =>
    by_cases hp : p = Ptr.nil
    · simp [OrElseGet, OrElse, hf, hp, Except.bind, pureProvider]
    · simp [OrElseGet, OrElse, hf, hp, Except.bind]

/-- C19: filters compose as conjunction.  For every Option variable and all
side-effect-free predicates `p` and `q`, the result of `r := opt.Filter(p);
r.Filter(q)` has the same presence and held value as the result of
`opt.Filter(func(x T) bool { return p(x) && q(x) })`; in particular filtering
twice by `p` gives what filtering once gives, filtering by an always-true
predicate gives an option with the presence and value of `opt`, and filtering
by an always-false predicate gives an empty option. -/
theorem C19_Filter_compose {T σ : Type} [Inhabited T] (a : Nat) (p q : T → Bool)
    (w : World T σ) :
    observe (filterTwice (Ptr.addr a) (purePredicate p) (purePredicate q) w)
        = observe (Filter (Ptr.addr a) (purePredicate fun x => p x && q x) w) ∧
      observe (filterTwice (Ptr.addr a) (purePredicate p) (purePredicate p) w)
        = observe (Filter (Ptr.addr a) (purePredicate p) w) ∧
      observe (Filter (Ptr.addr a) (purePredicate fun _ => true) w)
        = ((IsPresent (Ptr.addr a) w).bind fun b =>
            (Get (Ptr.addr a) w).bind fun g => Except.ok (b, g)) ∧
      observe (Filter (Ptr.addr a) (purePredicate fun _ => false) w)
        = Except.ok (false, (default, error.errNoElement {})) := by
  have hf := field_addr a w
  cases hv : (w.vars.mem a).val with
  | nil =>
    rw [hv] at hf
    simp [observe_filterTwice_pure_of_nil _ _ _ _ hf, observe_Filter_pure_of_nil _ _ _ hf,
      IsPresent_of_field _ _ _ hf, Get_of_field_nil _ _ hf, Except.bind]
  | addr c =>
    rw [hv] at hf
    simp [observe_filterTwice_pure_of_addr _ _ _ _ _ hf,
      observe_Filter_pure_of_addr _ _ _ _ hf,
      IsPresent_of_field _ _ _ hf, Get_of_field_addr _ _ _ hf, Except.bind]

/-- C20: round trip through `Get`.  For every Option variable, `Get` returns
some `(v, err)`, and after `opt2 := NewOptionFromValueOrError(v, err)` the new
variable has the presence of the old one and its `Get` returns the same pair as
`opt.Get()`. -/
theorem C20_Get_round_trip {T σ : Type} [Inhabited T] (a : Nat) (w : World T σ) :
    ∃ v e, Get (Ptr.addr a) w = Except.ok (v, e) ∧
      IsPresent (varFromValueOrError v e w).1 (varFromValueOrError v e w).2
        = IsPresent (Ptr.addr a) w ∧
      Get (varFromValueOrError v e w).1 (varFromValueOrError v e w).2
        = Get (Ptr.addr a) w := by
  have hf := field_addr a w
  cases hv : (w.vars.mem a).val with
  | nil =>
    rw [hv] at hf
    refine ⟨default, error.errNoElement {}, Get_of_field_nil _ _ hf, ?_, ?_⟩
    · rw [varFromValueOrError_err _ _ _ (by simp), IsPresent_of_field _ _ _ hf,
        IsPresent_of_field _ _ _ (field_varNone w)]
    · rw [varFromValueOrError_err _ _ _ (by simp), Get_of_field_nil _ _ hf,
        Get_of_field_nil _ _ (field_varNone w)]
  | addr c =>
    rw [hv] at hf
    refine ⟨w.cells.mem c, error.nil, Get_of_field_addr _ _ _ hf, ?_, ?_⟩
    · rw [varFromValueOrError_nil, IsPresent_of_field _ _ _ hf,
        IsPresent_of_field _ _ _ (field_varSome _ w)]
      simp
    · rw [varFromValueOrError_nil, Get_of_field_addr _ _ _ hf,
        Get_of_field_addr _ _ _ (field_varSome _ w), cell_varSome]

end option
